import Mathlib

/-
  Verification development for the ytb batch downloader.

  Shallow embedding of the orchestration layer:
    - src/progress.rs   : DownloadProgress (aggregator, progress line, export)
    - src/downloader.rs : download_video / process_download / cleanup_temp_files,
                          DownloadGuard, process_urls (semaphore + buffer_unordered(10))
    - src/sheet.rs      : SheetClient::fetch_urls content parsing

  Machine integers (usize) are modelled as Nat; the one place where usize
  subtraction can underflow (print_progress) is modelled with a checked
  subtraction returning Option, so that the debug-build panic is observable
  as none.  Durations and rates are modelled over the rationals.
-/

namespace Ytb

/-! ### DownloadProgress (src/progress.rs)

The Rust struct carries a `start_time : Instant`; elapsed time is passed
explicitly to the functions that need it, so the Lean state keeps only the
counters and the failure records. -/

structure DownloadProgress where
  total_videos : Nat
  completed : Nat
  errors : Nat
  failed_urls : List (String × String)
deriving Repr, DecidableEq

/-- Constructor `DownloadProgress::new(total_videos)`. -/
def DownloadProgress.new (total_videos : Nat) : DownloadProgress :=
  { total_videos := total_videos
    completed := 0
    errors := 0
    failed_urls := [] }

/-- Mutation part of `DownloadProgress::update(success)`:
`completed += 1`, and `errors += 1` when `!success`.
(The Rust function then calls `print_progress`, modelled separately below.) -/
def DownloadProgress.update (p : DownloadProgress) (success : Bool) : DownloadProgress :=
  { p with
    completed := p.completed + 1
    errors := if success then p.errors else p.errors + 1 }

/-- `DownloadProgress::record_failure(url, error)`: push `(url, error)`
at the end of `failed_urls`. -/
def DownloadProgress.record_failure (p : DownloadProgress) (url err : String) :
    DownloadProgress :=
  { p with failed_urls := p.failed_urls ++ [(url, err)] }

/-- Debug-build usize subtraction: `none` models the underflow panic. -/
def usizeSub (a b : Nat) : Option Nat :=
  if b ≤ a then some (a - b) else none

/-- The arithmetic of `DownloadProgress::print_progress`, restricted to the
estimated-remaining-time computation:
`avg = if completed > 0 then elapsed / completed else 0;`
`remaining = total_videos - completed;  est = avg * remaining`.
The usize subtraction is checked, so the result is `none` exactly when
`total_videos - completed` underflows. -/
def print_progress_est (elapsed : ℚ) (p : DownloadProgress) : Option ℚ :=
  let avg : ℚ := if 0 < p.completed then elapsed / (p.completed : ℚ) else 0
  (usizeSub p.total_videos p.completed).map (fun rem : Nat => avg * (rem : ℚ))

/-! ### Failure export (src/progress.rs, export_failures)

The durable sink `output/failed.txt` is modelled as the String of its
contents; the file is opened with `create(true).append(true)`, so a write
is an append to the current contents. -/

/-- One block written per failure record:
`URL: {url}`, `Error: {error}`, `---`, each on its own line. -/
def recordBlock (r : String × String) : String :=
  "URL: " ++ r.1 ++ "\n" ++ "Error: " ++ r.2 ++ "\n" ++ "---" ++ "\n"

/-- The section one `export_failures` call writes: a leading blank line and
timestamped header (from `writeln!(writer, "\n=== Failed Downloads Report {} ===", ts)`)
followed by one block per record. -/
def exportSection (ts : String) (records : List (String × String)) : String :=
  "\n" ++ "=== Failed Downloads Report " ++ ts ++ " ===" ++ "\n"
    ++ String.join (records.map recordBlock)

/-- `DownloadProgress::export_failures` on the success path of the file
open: no-op when `failed_urls` is empty, otherwise append one timestamped
section to the sink. -/
def export_failures (file : String) (p : DownloadProgress) (ts : String) : String :=
  if p.failed_urls.isEmpty then file
  else file ++ exportSection ts p.failed_urls

/-! ### The per-item job (src/downloader.rs)

`download_video` runs against the external Fetcher (`yt_dlp::Youtube`);
its four fallible calls are modelled as an oracle `JobSteps` giving the
result each external call would return.  `Video` keeps the fields the
code reads: `id`, `title`, and whether `best_audio_format()` /
`best_video_format()` return `Some`. -/

structure Video where
  id : String
  title : String
  audioAvailable : Bool
  videoAvailable : Bool
deriving Repr, DecidableEq

structure JobSteps where
  fetch_video_infos : Except String Video
  download_audio : Except String Unit
  download_video_format : Except String Unit
  combine_audio_and_video : Except String Unit
deriving Repr

structure FileNames where
  audio : String
  video : String
  name : String
deriving Repr, DecidableEq

/-- The `FileNames` literal built in `download_video`:
`audio_{id}.mp3`, `video_{id}.mp4`, `{index}_{id}_{title}.mp4`. -/
def mkFileNames (video : Video) (index : Nat) : FileNames :=
  { audio := "audio_" ++ video.id ++ ".mp3"
    video := "video_" ++ video.id ++ ".mp4"
    name := toString index ++ "_" ++ video.id ++ "_" ++ video.title ++ ".mp4" }

/-- `Downloader::process_download`: download best audio if available,
then best video if available, then combine; each `?` aborts on error. -/
def process_download (steps : JobSteps) (video : Video) : Except String Unit := do
  if video.audioAvailable then steps.download_audio
  if video.videoAvailable then steps.download_video_format
  steps.combine_audio_and_video

/-- `Downloader::download_video`, with the observable side effect of
interest made explicit: the second component records whether
`cleanup_temp_files` was invoked.  In the source, both
`fetch_video_infos(...).await?` and `process_download(...).await?` return
early on error, and the `cleanup_temp_files` call comes after them, so the
cleanup call is reached only when every step succeeded.
`cleanup_temp_files` itself logs deletion errors and returns `Ok(())`. -/
def download_video (steps : JobSteps) : Except String Unit × Bool :=
  match steps.fetch_video_infos with
  | .error e => (.error e, false)
  | .ok v =>
    match process_download steps v with
    | .error e => (.error e, false)
    | .ok _ => (.ok (), true)

/-- `download_video` together with the `active_downloads` counter:
`DownloadGuard::new` does `fetch_add(1)` on entry, and the guard's `Drop`
does `fetch_sub(1)` on every exit path of the function, including the
early `?` returns.  The result's last component is the counter value
after the invocation. -/
def download_video_with_counter (steps : JobSteps) (active : Nat) :
    (Except String Unit × Bool) × Nat :=
  let entered := active + 1
  match steps.fetch_video_infos with
  | .error e => ((.error e, false), entered - 1)
  | .ok v =>
    match process_download steps v with
    | .error e => ((.error e, false), entered - 1)
    | .ok _ => (((.ok ()), true), entered - 1)

/-! ### Outcome aggregation in process_urls (src/downloader.rs)

Each spawned task awaits `download_video`, locks the shared progress, and
on `Err(e)` calls `record_failure(url, e.to_string())` followed by
`update(false)`; on `Ok` it calls `update(true)`.  Exactly one such
recording happens per task. -/

/-- The recording a single task performs on the shared aggregator. -/
def recordOutcome (p : DownloadProgress) (url : String) (outcome : Except String Unit) :
    DownloadProgress :=
  match outcome with
  | .ok _ => p.update true
  | .error e => (p.record_failure url e).update false

/-- `Downloader::process_urls`, abstracted over the per-task outcomes in
the order the tasks complete (completion order is unconstrained by
submission order).  `buffer_unordered(10).collect()` awaits every task, so
every outcome is recorded before the summary runs; the function body
contains no `?`: the export error is caught with `if let Err`, and the
final expression is `Ok(())`. -/
def process_urls (outcomes : List (String × Except String Unit)) :
    Except String Unit × DownloadProgress :=
  let final := outcomes.foldl (fun p uo => recordOutcome p uo.1 uo.2)
    (DownloadProgress.new outcomes.length)
  ((.ok ()), final)

/-- The failure records a list of task outcomes gives rise to, in order. -/
def jobFailures (outcomes : List (String × Except String Unit)) :
    List (String × String) :=
  outcomes.filterMap (fun uo =>
    match uo.2 with
    | .ok _ => none
    | .error e => some (uo.1, e))

/-! ### Scheduling model for process_urls (src/downloader.rs)

`process_urls` drives the per-item tasks through
`stream::iter(...).map(...).buffer_unordered(10)`: at most 10 of the
mapped futures are in flight at once, and a new future is first polled
only when fewer than 10 already-started tasks are unfinished.  The first
action of each task body is `sem.acquire().await` on the semaphore of
capacity `config.concurrent_downloads`; the permit is held until the task
body ends.  An execution of a batch of `n` items is abstracted as a list
of events: `start` (a task is polled for the first time and obtains its
permit) and `finish` (an in-flight task completes, releasing its permit).
A `start` is enabled only when items remain, the buffer has room, and a
permit is free; a `finish` only when some task is in flight.  In-flight
tasks equal held permits, so both the buffer bound and the semaphore
bound read `started - finished`. -/

inductive Ev where
  | start : Ev
  | finish : Ev
deriving Repr, DecidableEq

structure SchedState where
  started : Nat
  finished : Nat
deriving Repr, DecidableEq

/-- The hardcoded argument of `buffer_unordered` in `process_urls`. -/
def bufferLimit : Nat := 10

/-- Whether an event is enabled in a state, for a batch of `n` items under
semaphore capacity `cap`. -/
def stepOk (n cap : Nat) (s : SchedState) : Ev → Bool
  | .start =>
      decide (s.started < n) && decide (s.started - s.finished < bufferLimit)
        && decide (s.started - s.finished < cap)
  | .finish => decide (s.finished < s.started)

/-- State change of an event. -/
def stepNext (s : SchedState) : Ev → SchedState
  | .start => { s with started := s.started + 1 }
  | .finish => { s with finished := s.finished + 1 }

/-- Validity of an event list from a given state. -/
def validFrom (n cap : Nat) (s : SchedState) : List Ev → Bool
  | [] => true
  | e :: t => stepOk n cap s e && validFrom n cap (stepNext s e) t

/-- Validity of an execution of the batch from the initial state. -/
def validTrace (n cap : Nat) (t : List Ev) : Bool :=
  validFrom n cap { started := 0, finished := 0 } t

/-- The state reached after a list of events. -/
def stateAfter (s : SchedState) (t : List Ev) : SchedState :=
  t.foldl stepNext s

/-- Number of `start` events in a trace. -/
def startCount : List Ev → Nat
  | [] => 0
  | .start :: t => startCount t + 1
  | .finish :: t => startCount t

/-- Number of `finish` events in a trace. -/
def finishCount : List Ev → Nat
  | [] => 0
  | .start :: t => finishCount t
  | .finish :: t => finishCount t + 1

/-- A complete execution: valid, and all `n` tasks started and finished
(`collect` returns only once every task has settled). -/
def completeTrace (n cap : Nat) (t : List Ev) : Bool :=
  validTrace n cap t && decide (startCount t = n) && decide (finishCount t = n)

/-- The value of the `active_downloads` counter after a trace, as an
integer (each in-flight task holds one `DownloadGuard`). -/
def active_downloads (t : List Ev) : Int :=
  (startCount t : Int) - (finishCount t : Int)

/-! ### Sheet content parsing (src/sheet.rs)

The tail of `SheetClient::fetch_urls`, from the fetched CSV text onward.
The text is modelled as its list of lines, each line a list of
characters (Rust `content.lines()`); the code keeps the trimmed form of
every line whose trimmed form is non-empty, in order, and returns an
error when nothing remains. -/

/-- Whitespace as trimmed by `str::trim` (restricted to the ASCII
whitespace that can occur in CSV text). -/
def isWs (c : Char) : Bool :=
  c == ' ' || c == '\t' || c == '\r' || c == '\n'

/-- `str::trim`: remove leading and trailing whitespace. -/
def trimChars (l : List Char) : List Char :=
  ((l.dropWhile isWs).reverse.dropWhile isWs).reverse

/-- The parsing in `fetch_urls`:
`content.lines().filter(|line| !line.trim().is_empty()).map(|line| line.trim().to_string())`,
then `Err("No valid URLs found in the sheet")` when the collected list is
empty, `Ok(urls)` otherwise. -/
def fetch_urls_parse (contentLines : List (List Char)) :
    Except String (List (List Char)) :=
  let urls := (contentLines.filter (fun l => !(trimChars l).isEmpty)).map trimChars
  if urls.isEmpty then .error ("No valid URLs found in the sheet")
  else .ok urls

/-- Whether a Rust `Result` is `Ok`. -/
def resultIsOk {ε α : Type} (r : Except ε α) : Bool :=
  match r with
  | .ok _ => true
  | .error _ => false

/-! ### Helper lemmas -/

theorem recordOutcome_completed (p : DownloadProgress) (url : String)
    (o : Except String Unit) :
    (recordOutcome p url o).completed = p.completed + 1 := by
  cases o <;>
    simp [recordOutcome, DownloadProgress.update, DownloadProgress.record_failure]

theorem recordOutcome_errors_le (p : DownloadProgress) (url : String)
    (o : Except String Unit) :
    (recordOutcome p url o).errors ≤ p.errors + 1 := by
  cases o <;>
    simp [recordOutcome, DownloadProgress.update, DownloadProgress.record_failure]

theorem recordOutcome_failed_urls (p : DownloadProgress) (url : String)
    (o : Except String Unit) :
    (recordOutcome p url o).failed_urls
      = p.failed_urls ++ jobFailures [(url, o)] := by
  cases o <;>
    simp [recordOutcome, DownloadProgress.update, DownloadProgress.record_failure,
      jobFailures]

theorem foldRecord_completed (l : List (String × Except String Unit))
    (p : DownloadProgress) :
    (l.foldl (fun q uo => recordOutcome q uo.1 uo.2) p).completed
      = p.completed + l.length := by
  induction l generalizing p with
  | nil => simp
  | cons uo t ih =>
    simp only [List.foldl_cons, ih, recordOutcome_completed, List.length_cons]
    omega

theorem foldRecord_errors_le (l : List (String × Except String Unit))
    (p : DownloadProgress) :
    (l.foldl (fun q uo => recordOutcome q uo.1 uo.2) p).errors
      ≤ p.errors + l.length := by
  induction l generalizing p with
  | nil => simp
  | cons uo t ih =>
    have h1 := recordOutcome_errors_le p uo.1 uo.2
    have h2 := ih (recordOutcome p uo.1 uo.2)
    simp only [List.foldl_cons, List.length_cons]
    omega

theorem jobFailures_cons (uo : String × Except String Unit)
    (t : List (String × Except String Unit)) :
    jobFailures (uo :: t) = jobFailures [uo] ++ jobFailures t := by
  cases uo with
  | mk url o => cases o <;> simp [jobFailures]

theorem foldRecord_failed_urls (l : List (String × Except String Unit))
    (p : DownloadProgress) :
    (l.foldl (fun q uo => recordOutcome q uo.1 uo.2) p).failed_urls
      = p.failed_urls ++ jobFailures l := by
  induction l generalizing p with
  | nil => simp [jobFailures]
  | cons uo t ih =>
    simp only [List.foldl_cons, ih, recordOutcome_failed_urls,
      jobFailures_cons uo t, List.append_assoc]

/-- The initial scheduler state of a batch. -/
def initState : SchedState :=
  { started := 0, finished := 0 }

/-- Tasks in flight after a list of events. -/
def inflightAfter (t : List Ev) : Nat :=
  (stateAfter initState t).started - (stateAfter initState t).finished

/-- Tasks started after a list of events. -/
def startedAfter (t : List Ev) : Nat :=
  (stateAfter initState t).started

theorem stateAfter_cons (s : SchedState) (e : Ev) (t : List Ev) :
    stateAfter s (e :: t) = stateAfter (stepNext s e) t := rfl

theorem stateAfter_started (t : List Ev) (s : SchedState) :
    (stateAfter s t).started = s.started + startCount t := by
  induction t generalizing s with
  | nil => simp [stateAfter, startCount]
  | cons e r ih =>
    cases e <;> (simp only [stateAfter_cons, ih, stepNext, startCount]; try omega)

theorem stateAfter_finished (t : List Ev) (s : SchedState) :
    (stateAfter s t).finished = s.finished + finishCount t := by
  induction t generalizing s with
  | nil => simp [stateAfter, finishCount]
  | cons e r ih =>
    cases e <;> (simp only [stateAfter_cons, ih, stepNext, finishCount]; try omega)

theorem validFrom_append (n cap : Nat) (p q : List Ev) (s : SchedState) :
    validFrom n cap s (p ++ q)
      = (validFrom n cap s p && validFrom n cap (stateAfter s p) q) := by
  induction p generalizing s with
  | nil => simp [validFrom, stateAfter]
  | cons e t ih =>
    simp only [List.cons_append, validFrom, List.append_eq, ih, stateAfter_cons,
      Bool.and_assoc]

/-- Validity keeps `finished ≤ started`. -/
theorem finished_le_started (n cap : Nat) (p : List Ev) (s : SchedState)
    (hv : validFrom n cap s p = true) (hs : s.finished ≤ s.started) :
    (stateAfter s p).finished ≤ (stateAfter s p).started := by
  induction p generalizing s with
  | nil => simpa [stateAfter] using hs
  | cons e t ih =>
    simp only [validFrom, Bool.and_eq_true] at hv
    obtain ⟨h1, h2⟩ := hv
    rw [stateAfter_cons]
    cases e with
    | start => exact ih _ h2 (by simp only [stepNext]; omega)
    | finish =>
      simp only [stepOk, decide_eq_true_eq] at h1
      exact ih _ h2 (by simp only [stepNext]; omega)

/-- Validity keeps the number of in-flight tasks within the
`buffer_unordered` bound. -/
theorem inflight_le_buffer (n cap : Nat) (p : List Ev) (s : SchedState)
    (hv : validFrom n cap s p = true)
    (hs : s.started - s.finished ≤ bufferLimit) :
    (stateAfter s p).started - (stateAfter s p).finished ≤ bufferLimit := by
  induction p generalizing s with
  | nil => simpa [stateAfter] using hs
  | cons e t ih =>
    simp only [validFrom, Bool.and_eq_true] at hv
    obtain ⟨h1, h2⟩ := hv
    rw [stateAfter_cons]
    cases e with
    | start =>
      simp only [stepOk, Bool.and_eq_true, decide_eq_true_eq] at h1
      exact ih _ h2 (by simp only [stepNext]; omega)
    | finish => exact ih _ h2 (by simp only [stepNext]; omega)

theorem startCount_replicate_start (n : Nat) :
    startCount (List.replicate n Ev.start) = n := by
  induction n with
  | zero => rfl
  | succ k ih => simpa [List.replicate_succ, startCount] using ih

theorem finishCount_replicate_start (n : Nat) :
    finishCount (List.replicate n Ev.start) = 0 := by
  induction n with
  | zero => rfl
  | succ k ih => simpa [List.replicate_succ, finishCount] using ih

/-! ### Claim theorems -/

/-- Claim C1: for every batch of n work items, after process_urls returns
the aggregator's completed count equals n and its failed count is at most
completed — process_urls awaits every launched task, and each task records
its outcome exactly once, incrementing completed by 1 and incrementing
errors by 1 only on failure. -/
theorem process_urls_completed_eq_total
    (outcomes : List (String × Except String Unit)) :
    (process_urls outcomes).2.completed = outcomes.length ∧
    (process_urls outcomes).2.errors ≤ (process_urls outcomes).2.completed := by
  have hc := foldRecord_completed outcomes (DownloadProgress.new outcomes.length)
  have he := foldRecord_errors_le outcomes (DownloadProgress.new outcomes.length)
  simp only [process_urls]
  simp only [DownloadProgress.new] at hc he ⊢
  omega

/-- Claim C2 counterexample: when step 1 (fetch_video_infos) fails, the
job returns the error without attempting deletion of the temporary
artifacts — cleanup_temp_files is not invoked on this exit path. -/
theorem cleanup_skipped_on_fetch_failure :
    (download_video
      { fetch_video_infos := .error ("network error")
        download_audio := .ok ()
        download_video_format := .ok ()
        combine_audio_and_video := .ok () }).2 = false ∧
    (download_video
      { fetch_video_infos := .error ("network error")
        download_audio := .ok ()
        download_video_format := .ok ()
        combine_audio_and_video := .ok () }).1 = .error ("network error") :=
  ⟨rfl, rfl⟩

/-- Claim C2 amended: deletion of the two temporary artifacts is attempted
exactly on the success path — cleanup_temp_files is invoked if and only if
all executed steps succeeded; on any step's failure the `?` operator
returns the error before the cleanup call is reached. -/
theorem cleanup_iff_success (steps : JobSteps) :
    (download_video steps).2 = resultIsOk (download_video steps).1 := by
  cases hfetch : steps.fetch_video_infos with
  | error e => simp [download_video, hfetch, resultIsOk]
  | ok v =>
    cases hpd : process_download steps v with
    | error e => simp [download_video, hfetch, hpd, resultIsOk]
    | ok u => simp [download_video, hfetch, hpd, resultIsOk]

/-- Claim C4: every recorded job outcome increments completed by exactly
1; a failure additionally increments errors by exactly 1 and appends
exactly one (url, message) pair at the end of failed_urls; a success
leaves errors and failed_urls unchanged. -/
theorem recordOutcome_deltas (p : DownloadProgress) (url e : String) :
    (recordOutcome p url (.ok ())).completed = p.completed + 1 ∧
    (recordOutcome p url (.ok ())).errors = p.errors ∧
    (recordOutcome p url (.ok ())).failed_urls = p.failed_urls ∧
    (recordOutcome p url (.error e)).completed = p.completed + 1 ∧
    (recordOutcome p url (.error e)).errors = p.errors + 1 ∧
    (recordOutcome p url (.error e)).failed_urls = p.failed_urls ++ [(url, e)] := by
  simp [recordOutcome, DownloadProgress.update, DownloadProgress.record_failure]

/-- Claim C6: for every combination of per-job outcomes, process_urls
itself returns Ok: a job's failure is never propagated as the scheduler's
failure, surfaces only as an aggregator entry, and never causes other
jobs to be skipped — every outcome is still recorded. -/
theorem process_urls_never_fails
    (outcomes : List (String × Except String Unit)) :
    (process_urls outcomes).1 = .ok () ∧
    (process_urls outcomes).2.failed_urls = jobFailures outcomes ∧
    (process_urls outcomes).2.completed = outcomes.length := by
  refine ⟨rfl, ?_, ?_⟩
  · have hf := foldRecord_failed_urls outcomes (DownloadProgress.new outcomes.length)
    simpa [process_urls, DownloadProgress.new] using hf
  · have hc := foldRecord_completed outcomes (DownloadProgress.new outcomes.length)
    simpa [process_urls, DownloadProgress.new] using hc

/-- Claim C7: calling export_failures twice on the same non-empty failure
list appends two timestamped sections to the sink, one after the other,
never overwriting previously written content. -/
theorem export_failures_appends (file : String) (p : DownloadProgress)
    (t1 t2 : String) (h : p.failed_urls ≠ []) :
    export_failures file p t1 = file ++ exportSection t1 p.failed_urls ∧
    export_failures (export_failures file p t1) p t2
      = file ++ exportSection t1 p.failed_urls ++ exportSection t2 p.failed_urls := by
  have hne : p.failed_urls.isEmpty = false := by
    simpa [List.isEmpty_iff] using h
  simp [export_failures, hne, String.append_assoc]

/-- Witness for C7 at a concrete one-record failure list. -/
theorem export_failures_appends_witness :
    export_failures ("log") (⟨1, 1, 1, [("u", "e")]⟩ : DownloadProgress) ("T1")
      = "log" ++ exportSection ("T1") [("u", "e")] ∧
    export_failures
        (export_failures ("log") (⟨1, 1, 1, [("u", "e")]⟩ : DownloadProgress) ("T1"))
        (⟨1, 1, 1, [("u", "e")]⟩ : DownloadProgress) ("T2")
      = "log" ++ exportSection ("T1") [("u", "e")] ++ exportSection ("T2") [("u", "e")] :=
  export_failures_appends "log" (⟨1, 1, 1, [("u", "e")]⟩ : DownloadProgress)
    "T1" "T2" (by decide)

/-- Claim C8: the estimated remaining time is elapsed / completed *
(total - completed), and the division is guarded: when completed = 0 the
average is taken as 0 and the estimate is 0 rather than a division by
zero. -/
theorem print_progress_div_guard (elapsed : ℚ) (p : DownloadProgress) :
    (p.completed = 0 → print_progress_est elapsed p = some 0) ∧
    (0 < p.completed → p.completed ≤ p.total_videos →
      print_progress_est elapsed p
        = some (elapsed / (p.completed : ℚ)
            * ((p.total_videos : ℚ) - (p.completed : ℚ)))) := by
  constructor
  · intro h
    simp [print_progress_est, usizeSub, h]
  · intro h1 h2
    simp only [print_progress_est, usizeSub, if_pos h2, if_pos h1]
    simp [Nat.cast_sub h2]

/-- Witness for C8: the guarded zero case and the positive case at
concrete states. -/
theorem print_progress_div_guard_witness :
    print_progress_est 6 (⟨10, 0, 0, []⟩ : DownloadProgress) = some 0 ∧
    print_progress_est 6 (⟨10, 2, 1, []⟩ : DownloadProgress)
      = some (6 / ((2 : Nat) : ℚ) * (((10 : Nat) : ℚ) - ((2 : Nat) : ℚ))) :=
  ⟨(print_progress_div_guard 6 (⟨10, 0, 0, []⟩ : DownloadProgress)).1 rfl,
   (print_progress_div_guard 6 (⟨10, 2, 1, []⟩ : DownloadProgress)).2
      (by decide) (by decide)⟩

/-- Claim C9: update has the unstated precondition completed <
total_videos — if update is called when completed already equals
total_videos, the usize subtraction total_videos - completed inside
print_progress underflows (none models the debug-build panic); under the
precondition the computation succeeds, and no guard in the code prevents
the extra call. -/
theorem update_underflow (elapsed : ℚ) (p : DownloadProgress) (success : Bool) :
    (p.completed = p.total_videos →
      print_progress_est elapsed (p.update success) = none) ∧
    (p.completed < p.total_videos →
      (print_progress_est elapsed (p.update success)).isSome = true) := by
  constructor
  · intro h
    have hlt : ¬ (p.completed + 1 ≤ p.total_videos) := by omega
    simp [print_progress_est, usizeSub, DownloadProgress.update, hlt]
  · intro h
    have hle : p.completed + 1 ≤ p.total_videos := by omega
    simp [print_progress_est, usizeSub, DownloadProgress.update, hle]

/-- Witness for C9: updating a saturated aggregator underflows; updating
an unsaturated one does not. -/
theorem update_underflow_witness :
    print_progress_est 5
        (DownloadProgress.update (⟨3, 3, 1, []⟩ : DownloadProgress) true) = none ∧
    (print_progress_est 5
        (DownloadProgress.update (⟨3, 2, 1, []⟩ : DownloadProgress) true)).isSome
      = true :=
  ⟨(update_underflow 5 (⟨3, 3, 1, []⟩ : DownloadProgress) true).1 rfl,
   (update_underflow 5 (⟨3, 2, 1, []⟩ : DownloadProgress) true).2 (by decide)⟩

/-- Claim C3 counterexample: with 11 items and semaphore capacity 11 (at
least the number of items), the schedule that creates and admits all 11
tasks up front is not a valid execution — buffer_unordered(10) keeps at
most 10 started-but-unfinished tasks, so the 11th up-front start is not
enabled. -/
theorem all_upfront_trace_invalid :
    validTrace 11 11 (List.replicate 11 Ev.start ++ List.replicate 11 Ev.finish)
      = false := by decide

/-- Claim C3 amended: when concurrent_downloads is at least the number of
items, no task ever suspends at the admission-slot acquisition point — at
every point of a valid execution, while any task is unstarted a semaphore
permit is free — but the tasks are not all created up front: at most
bufferLimit (10) tasks are in flight at any point, so a batch larger than
10 has no valid execution that starts every task before the first
completion. -/
theorem admission_amended (n cap : Nat) (t pre post : List Ev)
    (hcap : n ≤ cap) (hv : validTrace n cap t = true) (hsplit : t = pre ++ post) :
    (startedAfter pre < n → inflightAfter pre < cap) ∧
    inflightAfter pre ≤ bufferLimit ∧
    (bufferLimit < n → ∀ q, t ≠ List.replicate n Ev.start ++ q) := by
  have hpre : validFrom n cap initState pre = true := by
    rw [hsplit, validTrace, validFrom_append, Bool.and_eq_true] at hv
    exact hv.1
  refine ⟨?_, ?_, ?_⟩
  · intro hlt
    simp only [startedAfter] at hlt
    simp only [inflightAfter]
    omega
  · simpa only [inflightAfter] using
      inflight_le_buffer n cap pre initState hpre (by simp [initState, bufferLimit])
  · intro hbig q hq
    rw [hq, validTrace, validFrom_append, Bool.and_eq_true] at hv
    have hrep : validFrom n cap initState (List.replicate n Ev.start) = true := hv.1
    have hbuf :=
      inflight_le_buffer n cap (List.replicate n Ev.start) initState hrep
        (by simp [initState, bufferLimit])
    rw [stateAfter_started, stateAfter_finished, startCount_replicate_start,
      finishCount_replicate_start] at hbuf
    simp only [initState] at hbuf
    omega

/-- Witness for the amended C3: a batch of 2 items under capacity 3,
along the execution start, start, finish, finish, split after the first
start. -/
theorem admission_amended_witness :
    (startedAfter [Ev.start] < 2 → inflightAfter [Ev.start] < 3) ∧
    inflightAfter [Ev.start] ≤ bufferLimit ∧
    (bufferLimit < 2 → ∀ q,
      ([Ev.start, Ev.start, Ev.finish, Ev.finish] : List Ev)
        ≠ List.replicate 2 Ev.start ++ q) :=
  admission_amended 2 3 [Ev.start, Ev.start, Ev.finish, Ev.finish] [Ev.start]
    [Ev.start, Ev.finish, Ev.finish] (by decide) (by decide) rfl

/-- Claim C5: the active-downloads counter is incremented on entry to
every download_video invocation and the guard decrements it on every exit
path, so an invocation leaves the counter where it found it; across any
valid execution the counter never goes negative, and it reads exactly 0
once every task has settled, for any mix of successes and failures. -/
theorem active_downloads_guarded (steps : JobSteps) (active : Nat)
    (n cap : Nat) (t pre post : List Ev) :
    (download_video_with_counter steps active).2 = active ∧
    (validTrace n cap t = true → t = pre ++ post → 0 ≤ active_downloads pre) ∧
    (completeTrace n cap t = true → active_downloads t = 0) := by
  refine ⟨?_, ?_, ?_⟩
  · cases hfetch : steps.fetch_video_infos with
    | error e => simp [download_video_with_counter, hfetch]
    | ok v =>
      cases hpd : process_download steps v with
      | error e => simp [download_video_with_counter, hfetch, hpd]
      | ok u => simp [download_video_with_counter, hfetch, hpd]
  · intro hv hsplit
    have hpre : validFrom n cap initState pre = true := by
      rw [hsplit, validTrace, validFrom_append, Bool.and_eq_true] at hv
      exact hv.1
    have hfs := finished_le_started n cap pre initState hpre (by simp [initState])
    rw [stateAfter_started, stateAfter_finished] at hfs
    simp only [initState] at hfs
    simp only [active_downloads]
    omega
  · intro hc
    simp only [completeTrace, Bool.and_eq_true, decide_eq_true_eq] at hc
    obtain ⟨⟨_, hs⟩, hf⟩ := hc
    simp only [active_downloads, hs, hf]
    omega

/-- Witness for C5: a failing invocation restores the counter, and the
counter is non-negative along and zero after the complete execution of a
1-item batch. -/
theorem active_downloads_guarded_witness :
    (download_video_with_counter
      { fetch_video_infos := .error ("net down")
        download_audio := .ok ()
        download_video_format := .ok ()
        combine_audio_and_video := .ok () } 3).2 = 3 ∧
    (0 ≤ active_downloads [Ev.start]) ∧
    active_downloads [Ev.start, Ev.finish] = 0 := by
  obtain ⟨h1, h2, h3⟩ :=
    active_downloads_guarded
      { fetch_video_infos := .error ("net down")
        download_audio := .ok ()
        download_video_format := .ok ()
        combine_audio_and_video := .ok () } 3 1 2
      [Ev.start, Ev.finish] [Ev.start] [Ev.finish]
  exact ⟨h1, h2 (by decide) rfl, h3 (by decide)⟩

/-- Claim C10: the sheet parser never produces an empty work list — when
every line of the fetched content is blank it returns an error rather
than Ok with zero items, and otherwise it returns exactly the trimmed
non-empty lines in their original order. -/
theorem fetch_urls_nonempty (contentLines : List (List Char)) :
    ((contentLines.all fun l => (trimChars l).isEmpty) = true →
      fetch_urls_parse contentLines
        = .error ("No valid URLs found in the sheet")) ∧
    (∀ urls, fetch_urls_parse contentLines = .ok urls →
      urls ≠ [] ∧
      urls = (contentLines.filter fun l => !(trimChars l).isEmpty).map trimChars) := by
  constructor
  · intro hall
    have hfilter : (contentLines.filter fun l => !(trimChars l).isEmpty) = [] := by
      rw [List.filter_eq_nil_iff]
      intro a ha
      simp only [List.all_eq_true] at hall
      simp [hall a ha]
    simp [fetch_urls_parse, hfilter]
  · intro urls hok
    simp only [fetch_urls_parse] at hok
    split at hok
    · cases hok
    · rename_i hemp
      obtain rfl : _ = urls := by
        injection hok
      refine ⟨?_, rfl⟩
      intro hnil
      rw [hnil] at hemp
      simp at hemp

/-- Witness for C10: an all-blank content errors; a mixed content yields
exactly its trimmed non-empty lines. -/
theorem fetch_urls_nonempty_witness :
    fetch_urls_parse [[' ', ' '], []]
      = .error ("No valid URLs found in the sheet") ∧
    ([['a']] ≠ ([] : List (List Char)) ∧
      [['a']] = (([['a'], [' ']]).filter fun l => !(trimChars l).isEmpty).map trimChars) :=
  ⟨(fetch_urls_nonempty [[' ', ' '], []]).1 (by decide),
   (fetch_urls_nonempty [['a'], [' ']]).2 [['a']] rfl⟩

end Ytb
